import Mathlib

/-!
# Infected Protocol: the menu / unlocking state machine

A shallow embedding of `infected_protocol_app.c`.  The application state
`InfectedProtocolApp` is mutated by two pieces of code only: the input callback
`infected_protocol_input_callback` and the body of the `while(1)` loop of
`infected_protocol_app`.  Both are embedded as functions on the state; the loop
body also records the calls it makes to the host (`furi_delay_ms`, `gui_update`,
`furi_yield`) so that the frame shown during the completion hold is observable.
The draw callback `infected_protocol_draw_callback` reads the state and returns
the sequence of drawing calls it makes on the canvas.

`uint8_t` fields are natural numbers, with the wrap-around of `++` and `--`
written out as `% 256`.  The `char message[32]` buffer is a list of exactly 32
`Char`s; the text it holds is the run of characters before the first NUL.
-/

namespace InfectedProtocol

/-! ## Data model -/

/-- App modes for managing UI state (`typedef enum { ... } AppMode`). -/
inductive AppMode where
  | MENU_MAIN
  | PROCESS_UNLOCKING
  | SHOW_MESSAGE
  deriving DecidableEq, Repr

/-- Size of the `message` array of `InfectedProtocolApp`. -/
def MESSAGE_SIZE : Nat := 32

/-- The terminator of a C string. -/
def NUL : Char := Char.ofNat 0

/-- A `char[32]` array: exactly `MESSAGE_SIZE` characters. -/
abbrev MessageBuffer : Type := { l : List Char // l.length = MESSAGE_SIZE }

/-- Application state structure (`InfectedProtocolApp`).  `progress` and
`selected_index` are `uint8_t` in the source. -/
structure InfectedProtocolApp where
  mode : AppMode
  progress : Nat
  selected_index : Nat
  message : MessageBuffer
  deriving DecidableEq

/-- Menu items for the drop-down list. -/
def menu_items : List String :=
  ["Unlock Phone", "Diagnostic Check", "System Reset"]

/-- The source computes `sizeof(menu_items) / sizeof(menu_items[0])`, stored in a `uint8_t`. -/
def menu_items_count : Nat := menu_items.length % 256

/-- Modelled from the spec: the host header `input/input.h` is not part of the
repository.  The keys an input event can carry: confirm (`InputKeyOk`), the two
directional keys the program reads, and the other keys of the device. -/
inductive InputKey where
  | InputKeyUp
  | InputKeyDown
  | InputKeyRight
  | InputKeyLeft
  | InputKeyOk
  | InputKeyBack
  deriving DecidableEq, Repr

/-- Modelled from the spec: the host header `input/input.h` is not part of the
repository.  The press kinds of an input event; only `InputEventTypeShort` is
read by the program. -/
inductive InputEventType where
  | InputEventTypePress
  | InputEventTypeRelease
  | InputEventTypeShort
  | InputEventTypeLong
  | InputEventTypeRepeat
  deriving DecidableEq, Repr

/-- The two fields of the host's `InputEvent` that the callback reads. -/
structure InputEvent where
  type : InputEventType
  key : InputKey
  deriving DecidableEq, Repr

/-! ## C strings in the message buffer -/

/-- Store of one character, `dst[i] = c`.  The array keeps its size. -/
def MessageBuffer.store (dst : MessageBuffer) (i : Nat) (c : Char) : MessageBuffer :=
  ⟨dst.val.set i c, by rw [List.length_set]; exact dst.property⟩

/-- The copy loop of `strcpy`: the characters of `src` are stored from index `i`
on, then the terminator. -/
def strcpy_from (dst : MessageBuffer) (i : Nat) : List Char → MessageBuffer
  | [] => dst.store i NUL
  | c :: cs => strcpy_from (dst.store i c) (i + 1) cs

/-- The call `strcpy(dst, src)` for a string literal `src`: its characters and the
terminating NUL are written from the start of `dst`; the bytes behind the
terminator are not touched. -/
def strcpy (dst : MessageBuffer) (src : String) : MessageBuffer :=
  strcpy_from dst 0 src.toList

/-- The text a `char[32]` holds when read as a C string: the characters before
the first NUL. -/
def c_str (buf : MessageBuffer) : String :=
  String.mk (buf.val.takeWhile (fun c => c != NUL))

/-- A zero-filled buffer, as left by the designated initialiser in
`infected_protocol_app`, which names no value for `message`. -/
def zero_message : MessageBuffer :=
  ⟨List.replicate MESSAGE_SIZE NUL, List.length_replicate _ _⟩

/-! ## Input callback -/

/-- Input callback: handles button presses and other input events
(`infected_protocol_input_callback`).  The state behind `ctx` is passed in and
the updated state is returned. -/
def infected_protocol_input_callback (event : InputEvent) (app : InfectedProtocolApp) :
    InfectedProtocolApp :=
  if event.type = InputEventType.InputEventTypeShort then
    if event.key = InputKey.InputKeyOk then
      if app.mode = AppMode.MENU_MAIN then
        if app.selected_index = 0 then
          { app with mode := AppMode.PROCESS_UNLOCKING, progress := 0 }
        else
          { app with mode := AppMode.SHOW_MESSAGE,
                     message := strcpy app.message "Not implemented" }
      else if app.mode = AppMode.SHOW_MESSAGE then
        { app with mode := AppMode.MENU_MAIN }
      else app
    else if event.key = InputKey.InputKeyUp ∧ app.mode = AppMode.MENU_MAIN then
      if app.selected_index > 0 then
        { app with selected_index := (app.selected_index + 256 - 1) % 256 }
      else app
    else if event.key = InputKey.InputKeyDown ∧ app.mode = AppMode.MENU_MAIN then
      if app.selected_index < menu_items_count - 1 then
        { app with selected_index := (app.selected_index + 1) % 256 }
      else app
    else app
  else app

/-! ## Main loop -/

/-- The calls the loop body makes to the host.  `gui_update` redraws the screen
from the state it is given, so it carries the state at the time of the call. -/
inductive HostCall where
  | furi_delay_ms (ms : Nat)
  | gui_update (shown : InfectedProtocolApp)
  | furi_yield
  deriving DecidableEq

/-- State of `app` as declared in `infected_protocol_app`:
`{ .mode = MENU_MAIN, .progress = 0, .selected_index = 0 }`, the message zero-filled. -/
def initial_app : InfectedProtocolApp :=
  { mode := AppMode.MENU_MAIN, progress := 0, selected_index := 0, message := zero_message }

/-- One pass through the body of `while(1)` in `infected_protocol_app`: the host
calls made, in order, and the state at the end of the pass. -/
def loop_body (app : InfectedProtocolApp) : List HostCall × InfectedProtocolApp :=
  if app.mode = AppMode.PROCESS_UNLOCKING then
    if app.progress < 100 then
      let app1 := { app with progress := (app.progress + 1) % 256 }
      ([HostCall.furi_delay_ms 100, HostCall.gui_update app1, HostCall.furi_yield], app1)
    else
      let app1 := { app with mode := AppMode.SHOW_MESSAGE }
      let app2 := { app1 with message := strcpy app1.message "Unlock Complete" }
      let app3 := { app2 with mode := AppMode.MENU_MAIN }
      ([HostCall.gui_update app2, HostCall.furi_delay_ms 2000, HostCall.gui_update app3,
        HostCall.furi_yield], app3)
  else
    ([HostCall.furi_yield], app)

/-- State after one pass through the loop body. -/
def loop_iteration (app : InfectedProtocolApp) : InfectedProtocolApp :=
  (loop_body app).2

/-- The frames `gui_update` presents during one pass, in order. -/
def frames : List HostCall → List InfectedProtocolApp
  | [] => []
  | HostCall.gui_update shown :: rest => shown :: frames rest
  | _ :: rest => frames rest

/-! ## Interleavings of input events and loop iterations

The callbacks and the loop never run concurrently, so a run of the program is a
sequence of steps, each one input event or one pass through the loop body. -/

/-- One step of the program. -/
inductive Step where
  | input (event : InputEvent)
  | tick
  deriving DecidableEq

/-- Effect of one step on the state. -/
def step (app : InfectedProtocolApp) : Step → InfectedProtocolApp
  | Step.input event => infected_protocol_input_callback event app
  | Step.tick => loop_iteration app

/-- State after a finite sequence of steps. -/
def run (app : InfectedProtocolApp) (steps : List Step) : InfectedProtocolApp :=
  steps.foldl step app

/-- Number of loop iterations in a sequence of steps. -/
def ticks : List Step → Nat
  | [] => 0
  | Step.tick :: rest => ticks rest + 1
  | Step.input _ :: rest => ticks rest

/-- The states reachable from the initial state. -/
def Reachable (app : InfectedProtocolApp) : Prop :=
  ∃ steps : List Step, run initial_app steps = app

/-- A short press of `key`. -/
def short_press (key : InputKey) : InputEvent :=
  { type := InputEventType.InputEventTypeShort, key := key }

/-- State after `n` short presses of `key`. -/
def press_n (key : InputKey) : Nat → InfectedProtocolApp → InfectedProtocolApp
  | 0, app => app
  | n + 1, app => press_n key n (infected_protocol_input_callback (short_press key) app)


/-- The state in `MENU_MAIN` with the given `selected_index` and `progress`, message zero-filled. -/
def menu_at (index progress : Nat) : InfectedProtocolApp :=
  { mode := AppMode.MENU_MAIN, progress := progress, selected_index := index,
    message := zero_message }

/-- The state in `PROCESS_UNLOCKING` with the given `progress`, index 0, message zero-filled. -/
def unlocking_at (progress : Nat) : InfectedProtocolApp :=
  { mode := AppMode.PROCESS_UNLOCKING, progress := progress, selected_index := 0,
    message := zero_message }

/-- The state in `SHOW_MESSAGE` reached from the menu by confirming entry `index`. -/
def message_at (index : Nat) : InfectedProtocolApp :=
  { mode := AppMode.SHOW_MESSAGE, progress := 0, selected_index := index,
    message := strcpy zero_message "Not implemented" }

/-! ## Draw callback -/

/-- Color definitions of the source. -/
def COLOR_BLACK : Nat := 0x000000

/-- For progress and highlights. -/
def COLOR_NEON_GREEN : Nat := 0x39FF14

/-- For title text. -/
def COLOR_NEON_PINK : Nat := 0xFF6EC7

/-- For non-selected menu items. -/
def COLOR_NEON_PURPLE : Nat := 0x800080

/-- Modelled from the spec: the font type comes from the host header
`gui/canvas.h`, which is not part of the repository; the program names one font. -/
inductive Font where
  | FontPrimary
  deriving DecidableEq, Repr

/-- The source defines `FONT_PRIMARY` as `FontPrimary`. -/
def FONT_PRIMARY : Font := Font.FontPrimary

/-- Modelled from the spec: the host declares `Canvas` in `gui/canvas.h`, which is
not part of the repository.  The callback reads the pixel dimensions `width` and
`height` of the fixed-size canvas; they are read as C `int` values. -/
structure Canvas where
  width : Int
  height : Int
  deriving DecidableEq, Repr

/-- The drawing primitives the callback calls on the canvas, with their arguments
in the order of the source. -/
inductive DrawCommand where
  | canvas_clear (color : Nat)
  | canvas_draw_str (x y : Int) (text : String) (font : Font) (color : Nat)
  | canvas_draw_box (x y w h : Int) (color : Nat)
  deriving DecidableEq, Repr

/-- Value left in a 32-bit C `int` by an arithmetic result: it wraps around
modulo `2 ^ 32` into the range `-2147483648 .. 2147483647`. -/
def wrap_int (x : Int) : Int :=
  (x + 2147483648) % 4294967296 - 2147483648

/-- The source computes `(canvas->width - 20) * app->progress / 100` into an `int`:
the difference, then the product, each held in a 32-bit `int`, then the division
of C, which truncates. -/
def progress_bar_width (width : Int) (progress : Nat) : Int :=
  Int.tdiv (wrap_int (wrap_int (width - 20) * (progress : Int))) 100

/-- The call `snprintf(progress_text, size, "Unlocking: %d%%", progress)`: the
formatted text, cut to `size - 1` characters. -/
def snprintf_unlocking (size : Nat) (progress : Nat) : String :=
  String.mk (("Unlocking: " ++ toString progress ++ "%").toList.take (size - 1))

/-- Colour of menu entry `i`: the selected item is neon green, the others neon purple. -/
def menu_item_color (app : InfectedProtocolApp) (i : Nat) : Nat :=
  if i = app.selected_index then COLOR_NEON_GREEN else COLOR_NEON_PURPLE

/-- The `for` loop over the menu: one `canvas_draw_str` per `i` from 0 up to
`menu_items_count - 1`, at `start_y + i * 20`. -/
def draw_menu (app : InfectedProtocolApp) (start_y : Int) : List DrawCommand :=
  (List.range menu_items_count).map (fun (i : Nat) =>
    DrawCommand.canvas_draw_str 10 (start_y + ((i : Int) * 20)) (menu_items.getD i "")
      FONT_PRIMARY (menu_item_color app i))

/-- Draw callback: renders UI elements on the screen
(`infected_protocol_draw_callback`).  It writes nothing to the state; the result
is the sequence of drawing calls. -/
def infected_protocol_draw_callback (canvas : Canvas) (app : InfectedProtocolApp) :
    List DrawCommand :=
  [DrawCommand.canvas_clear COLOR_BLACK,
   DrawCommand.canvas_draw_str 10 20 "Infected Protocol" FONT_PRIMARY COLOR_NEON_PINK]
  ++
  (if app.mode = AppMode.MENU_MAIN then
    draw_menu app 40
  else if app.mode = AppMode.PROCESS_UNLOCKING then
    [DrawCommand.canvas_draw_box 10 (wrap_int (canvas.height - 40))
        (progress_bar_width canvas.width app.progress) 10 COLOR_NEON_GREEN,
     DrawCommand.canvas_draw_str 10 (wrap_int (canvas.height - 60))
        (snprintf_unlocking 32 app.progress) FONT_PRIMARY COLOR_NEON_GREEN]
  else if app.mode = AppMode.SHOW_MESSAGE then
    [DrawCommand.canvas_draw_str 10 (Int.tdiv canvas.height 2) (c_str app.message)
        FONT_PRIMARY COLOR_NEON_GREEN]
  else [])

/-- A buffer is null-terminated when one of its 32 characters is NUL. -/
def null_terminated (buf : MessageBuffer) : Prop :=
  NUL ∈ buf.val

instance null_terminated_decidable (buf : MessageBuffer) : Decidable (null_terminated buf) :=
  inferInstanceAs (Decidable (NUL ∈ buf.val))

/-- A run that confirms "Unlock Phone" and then passes through the loop body 100 times. -/
def unlock_steps : List Step :=
  Step.input (short_press InputKey.InputKeyOk) :: List.replicate 100 Step.tick

/-- The frame held on screen when the unlocking started from the initial state completes. -/
def held_frame : InfectedProtocolApp :=
  { mode := AppMode.SHOW_MESSAGE, progress := 100, selected_index := 0,
    message := strcpy zero_message "Unlock Complete" }

/-! ## What `strcpy` leaves in the buffer -/

theorem store_val (dst : MessageBuffer) (i : Nat) (c : Char) :
    (dst.store i c).val = dst.val.set i c := rfl

theorem strcpy_from_val (cs : List Char) :
    ∀ (dst : MessageBuffer) (i : Nat), i + cs.length < MESSAGE_SIZE →
      (strcpy_from dst i cs).val
        = dst.val.take i ++ cs ++ NUL :: dst.val.drop (i + cs.length + 1) := by
  induction cs with
  | nil =>
    intro dst i h
    have hi : i < dst.val.length := by rw [dst.property]; simpa using h
    rw [strcpy_from, store_val, List.set_eq_take_append_cons_drop, if_pos hi]
    simp
  | cons c cs ih =>
    intro dst i h
    have hlen : i + 1 + cs.length < MESSAGE_SIZE := by
      simp only [List.length_cons] at h; omega
    have hi : i < dst.val.length := by rw [dst.property]; omega
    have htake : (dst.val.set i c).take (i + 1) = dst.val.take i ++ [c] := by
      have e : i + 1 - i = 1 := by omega
      rw [List.set_eq_take_append_cons_drop, if_pos hi, List.take_append_eq_append_take,
        List.length_take, Nat.min_eq_left hi.le, e, List.take_take]
      simp
    have hdrop : (dst.val.set i c).drop (i + 1 + cs.length + 1)
        = dst.val.drop (i + 1 + cs.length + 1) :=
      List.drop_set_of_lt c dst.val (by omega)
    rw [strcpy_from, ih (dst.store i c) (i + 1) hlen, store_val, htake, hdrop]
    have hidx : i + (c :: cs).length + 1 = i + 1 + cs.length + 1 := by
      simp only [List.length_cons]; omega
    rw [hidx]
    simp

/-- Reading back a string copied by `strcpy`: if the string and its terminator
fit in the buffer and the string holds no NUL, the buffer reads as that string. -/
theorem c_str_strcpy (dst : MessageBuffer) (src : String)
    (hfit : src.toList.length < MESSAGE_SIZE) (hnul : ∀ c ∈ src.toList, (c != NUL) = true) :
    c_str (strcpy dst src) = src := by
  have hfit0 : 0 + src.toList.length < MESSAGE_SIZE := by omega
  unfold c_str strcpy
  rw [strcpy_from_val src.toList dst 0 hfit0]
  simp only [List.take_zero, List.nil_append]
  rw [List.takeWhile_append_of_pos hnul, List.takeWhile_cons_of_neg (by decide)]
  simp

theorem c_str_not_implemented (dst : MessageBuffer) :
    c_str (strcpy dst "Not implemented") = "Not implemented" :=
  c_str_strcpy dst "Not implemented" (by decide) (by decide)

theorem c_str_unlock_complete (dst : MessageBuffer) :
    c_str (strcpy dst "Unlock Complete") = "Unlock Complete" :=
  c_str_strcpy dst "Unlock Complete" (by decide) (by decide)


/-! ## Shared facts about the callback and the loop body -/

theorem menu_items_count_eq : menu_items_count = 3 := rfl

/-- In `PROCESS_UNLOCKING` no branch of the input callback writes to the state. -/
theorem input_callback_unlocking (event : InputEvent) (app : InfectedProtocolApp)
    (h : app.mode = AppMode.PROCESS_UNLOCKING) :
    infected_protocol_input_callback event app = app := by
  unfold infected_protocol_input_callback
  simp [h]

/-- The input callback keeps `selected_index` below 3. -/
theorem input_callback_index_le (event : InputEvent) (app : InfectedProtocolApp)
    (h : app.selected_index ≤ 2) :
    (infected_protocol_input_callback event app).selected_index ≤ 2 := by
  unfold infected_protocol_input_callback
  rw [menu_items_count_eq]
  split_ifs <;> first | exact h | (simp; omega)

/-- The loop body never writes `selected_index`. -/
theorem loop_iteration_selected_index (app : InfectedProtocolApp) :
    (loop_iteration app).selected_index = app.selected_index := by
  unfold loop_iteration loop_body
  split_ifs <;> rfl

theorem step_index_le (app : InfectedProtocolApp) (s : Step) (h : app.selected_index ≤ 2) :
    (step app s).selected_index ≤ 2 := by
  cases s with
  | input event => exact input_callback_index_le event app h
  | tick => simpa [step, loop_iteration_selected_index] using h

theorem run_index_le (steps : List Step) :
    ∀ app : InfectedProtocolApp, app.selected_index ≤ 2 → (run app steps).selected_index ≤ 2 := by
  induction steps with
  | nil => intro app h; exact h
  | cons s rest ih => intro app h; exact ih (step app s) (step_index_le app s h)

theorem run_append (app : InfectedProtocolApp) (xs ys : List Step) :
    run app (xs ++ ys) = run (run app xs) ys := by
  simp [run, List.foldl_append]

/-- A pass through the loop body in `PROCESS_UNLOCKING` below 100. -/
theorem loop_iteration_progress (app : InfectedProtocolApp)
    (hmode : app.mode = AppMode.PROCESS_UNLOCKING) (hlt : app.progress < 100) :
    loop_iteration app = { app with progress := app.progress + 1 } := by
  have hmod : (app.progress + 1) % 256 = app.progress + 1 := Nat.mod_eq_of_lt (by omega)
  simp [loop_iteration, loop_body, hmode, hlt, hmod]

/-- A pass through the loop body in `PROCESS_UNLOCKING` once `progress` is not below 100. -/
theorem loop_iteration_complete (app : InfectedProtocolApp)
    (hmode : app.mode = AppMode.PROCESS_UNLOCKING) (hge : ¬ app.progress < 100) :
    loop_iteration app
      = { app with mode := AppMode.MENU_MAIN,
                   message := strcpy app.message "Unlock Complete" } := by
  simp [loop_iteration, loop_body, hmode, hge]

/-- While unlocking, only the loop iterations count: input events change nothing
and each iteration adds one to `progress`, as long as 100 is not passed. -/
theorem run_unlocking (steps : List Step) :
    ∀ app : InfectedProtocolApp, app.mode = AppMode.PROCESS_UNLOCKING →
      app.progress + ticks steps ≤ 100 →
      run app steps = { app with progress := app.progress + ticks steps } := by
  induction steps with
  | nil => intro app _ _; rfl
  | cons s rest ih =>
    intro app hmode hle
    cases s with
    | input event =>
      have hstep : step app (Step.input event) = app := input_callback_unlocking event app hmode
      have hrun : run app (Step.input event :: rest) = run (step app (Step.input event)) rest := rfl
      rw [hrun, hstep]
      exact ih app hmode (by simpa [ticks] using hle)
    | tick =>
      have hlt : app.progress < 100 := by simp only [ticks] at hle; omega
      have hrun : run app (Step.tick :: rest) = run (loop_iteration app) rest := rfl
      have hle1 : app.progress + 1 + ticks rest ≤ 100 := by simp only [ticks] at hle; omega
      rw [hrun, loop_iteration_progress app hmode hlt]
      rw [ih { app with progress := app.progress + 1 } hmode hle1]
      simp only [ticks]
      congr 1
      omega


theorem press_n_index_le (key : InputKey) (n : Nat) :
    ∀ app : InfectedProtocolApp, app.selected_index ≤ 2 →
      (press_n key n app).selected_index ≤ 2 := by
  induction n with
  | zero => intro app h; exact h
  | succ n ih =>
    intro app h
    exact ih _ (input_callback_index_le (short_press key) app h)

theorem iterate_unlocking (n : Nat) :
    ∀ app : InfectedProtocolApp, app.mode = AppMode.PROCESS_UNLOCKING →
      app.progress + n ≤ 100 →
      loop_iteration^[n] app = { app with progress := app.progress + n } := by
  induction n with
  | zero => intro app _ _; rfl
  | succ n ih =>
    intro app hmode hle
    have hlt : app.progress < 100 := by omega
    have hle1 : app.progress + 1 + n ≤ 100 := by omega
    rw [Function.iterate_succ_apply, loop_iteration_progress app hmode hlt,
      ih { app with progress := app.progress + 1 } hmode hle1]
    simp only []
    congr 1
    omega

/-! ## The claims -/

/-- C1: from the initial state (`MENU_MAIN`, progress 0, selected_index 0, empty
message), after every finite interleaving of input events and loop iterations
`selected_index` is within the bounds of the 3-item menu: `0 ≤ selected_index ≤ 2`,
that is, below `menu_items_count`. -/
theorem selected_index_within_menu_bounds (steps : List Step) :
    0 ≤ (run initial_app steps).selected_index
      ∧ (run initial_app steps).selected_index ≤ 2
      ∧ (run initial_app steps).selected_index < menu_items_count := by
  have h : (run initial_app steps).selected_index ≤ 2 :=
    run_index_le steps initial_app (by decide)
  rw [menu_items_count_eq]
  omega

/-- C2: from `MENU_MAIN` with `selected_index = 0`, after any number `n` of short
Down presses `selected_index` does not exceed 2; and a short Down press in
`MENU_MAIN` with `selected_index = 2` leaves the whole state unchanged (it is
clamped, it does not wrap). -/
theorem down_presses_clamped :
    (∀ (app : InfectedProtocolApp) (n : Nat), app.mode = AppMode.MENU_MAIN →
        app.selected_index = 0 →
        (press_n InputKey.InputKeyDown n app).selected_index ≤ 2)
    ∧ (∀ app : InfectedProtocolApp, app.mode = AppMode.MENU_MAIN →
        app.selected_index = 2 →
        infected_protocol_input_callback (short_press InputKey.InputKeyDown) app = app) := by
  refine ⟨?_, ?_⟩
  · intro app n _ h0
    exact press_n_index_le InputKey.InputKeyDown n app (by omega)
  · intro app hmode h2
    simp [infected_protocol_input_callback, short_press, hmode, h2, menu_items_count_eq]

theorem down_presses_clamped_witness :
    (menu_at 0 7).mode = AppMode.MENU_MAIN ∧ (menu_at 0 7).selected_index = 0
      ∧ (press_n InputKey.InputKeyDown 5 (menu_at 0 7)).selected_index ≤ 2
      ∧ (menu_at 2 7).mode = AppMode.MENU_MAIN ∧ (menu_at 2 7).selected_index = 2
      ∧ infected_protocol_input_callback (short_press InputKey.InputKeyDown) (menu_at 2 7)
          = menu_at 2 7 :=
  ⟨rfl, rfl, down_presses_clamped.1 (menu_at 0 7) 5 rfl rfl, rfl, rfl,
    down_presses_clamped.2 (menu_at 2 7) rfl rfl⟩

/-- C3: from `MENU_MAIN` with `selected_index = 2`, after any number `n` of short Up
presses `selected_index` is still in `0..2` (it never goes below 0); and a short
Up press in `MENU_MAIN` with `selected_index = 0` leaves the whole state
unchanged, so the 8-bit index does not wrap to 255. -/
theorem up_presses_clamped :
    (∀ (app : InfectedProtocolApp) (n : Nat), app.mode = AppMode.MENU_MAIN →
        app.selected_index = 2 →
        0 ≤ (press_n InputKey.InputKeyUp n app).selected_index
          ∧ (press_n InputKey.InputKeyUp n app).selected_index ≤ 2)
    ∧ (∀ app : InfectedProtocolApp, app.mode = AppMode.MENU_MAIN →
        app.selected_index = 0 →
        infected_protocol_input_callback (short_press InputKey.InputKeyUp) app = app
          ∧ (infected_protocol_input_callback (short_press InputKey.InputKeyUp) app).selected_index
              ≠ 255) := by
  refine ⟨?_, ?_⟩
  · intro app n _ h2
    exact ⟨Nat.zero_le _, press_n_index_le InputKey.InputKeyUp n app (by omega)⟩
  · intro app hmode h0
    have hsame :
        infected_protocol_input_callback (short_press InputKey.InputKeyUp) app = app := by
      simp [infected_protocol_input_callback, short_press, hmode, h0]
    refine ⟨hsame, ?_⟩
    rw [hsame, h0]
    decide

theorem up_presses_clamped_witness :
    (menu_at 2 7).mode = AppMode.MENU_MAIN ∧ (menu_at 2 7).selected_index = 2
      ∧ (0 ≤ (press_n InputKey.InputKeyUp 5 (menu_at 2 7)).selected_index
          ∧ (press_n InputKey.InputKeyUp 5 (menu_at 2 7)).selected_index ≤ 2)
      ∧ (menu_at 0 7).mode = AppMode.MENU_MAIN ∧ (menu_at 0 7).selected_index = 0
      ∧ (infected_protocol_input_callback (short_press InputKey.InputKeyUp) (menu_at 0 7)
            = menu_at 0 7
          ∧ (infected_protocol_input_callback (short_press InputKey.InputKeyUp)
              (menu_at 0 7)).selected_index ≠ 255) :=
  ⟨rfl, rfl, up_presses_clamped.1 (menu_at 2 7) 5 rfl rfl, rfl, rfl,
    up_presses_clamped.2 (menu_at 0 7) rfl rfl⟩

/-- C4: in `MENU_MAIN` with `selected_index = 0`, whatever the current `progress`
(a stale 100 included), a short OK press yields `PROCESS_UNLOCKING` with
`progress = 0` and leaves `selected_index` and `message` unchanged. -/
theorem confirm_unlock_starts_at_zero (app : InfectedProtocolApp)
    (hmode : app.mode = AppMode.MENU_MAIN) (h0 : app.selected_index = 0) :
    (infected_protocol_input_callback (short_press InputKey.InputKeyOk) app).mode
        = AppMode.PROCESS_UNLOCKING
      ∧ (infected_protocol_input_callback (short_press InputKey.InputKeyOk) app).progress = 0
      ∧ (infected_protocol_input_callback (short_press InputKey.InputKeyOk) app).selected_index
          = app.selected_index
      ∧ (infected_protocol_input_callback (short_press InputKey.InputKeyOk) app).message
          = app.message := by
  simp [infected_protocol_input_callback, short_press, hmode, h0]

theorem confirm_unlock_starts_at_zero_witness :
    (menu_at 0 100).mode = AppMode.MENU_MAIN ∧ (menu_at 0 100).selected_index = 0
      ∧ (infected_protocol_input_callback (short_press InputKey.InputKeyOk) (menu_at 0 100)).mode
          = AppMode.PROCESS_UNLOCKING
      ∧ (infected_protocol_input_callback (short_press InputKey.InputKeyOk)
          (menu_at 0 100)).progress = 0
      ∧ (infected_protocol_input_callback (short_press InputKey.InputKeyOk)
          (menu_at 0 100)).selected_index = (menu_at 0 100).selected_index
      ∧ (infected_protocol_input_callback (short_press InputKey.InputKeyOk)
          (menu_at 0 100)).message = (menu_at 0 100).message :=
  ⟨rfl, rfl, confirm_unlock_starts_at_zero (menu_at 0 100) rfl rfl⟩

/-- C5: in `MENU_MAIN` with `selected_index` 1 or 2, a short OK press yields
`SHOW_MESSAGE` with the message text exactly "Not implemented" and leaves
`selected_index` and `progress` unchanged. -/
theorem confirm_other_entry_shows_not_implemented (app : InfectedProtocolApp)
    (hmode : app.mode = AppMode.MENU_MAIN)
    (hidx : app.selected_index = 1 ∨ app.selected_index = 2) :
    (infected_protocol_input_callback (short_press InputKey.InputKeyOk) app).mode
        = AppMode.SHOW_MESSAGE
      ∧ c_str (infected_protocol_input_callback (short_press InputKey.InputKeyOk) app).message
          = "Not implemented"
      ∧ (infected_protocol_input_callback (short_press InputKey.InputKeyOk) app).selected_index
          = app.selected_index
      ∧ (infected_protocol_input_callback (short_press InputKey.InputKeyOk) app).progress
          = app.progress := by
  have hne : app.selected_index ≠ 0 := by omega
  simp [infected_protocol_input_callback, short_press, hmode, hne, c_str_not_implemented]

theorem confirm_other_entry_shows_not_implemented_witness :
    (menu_at 2 9).mode = AppMode.MENU_MAIN
      ∧ ((menu_at 2 9).selected_index = 1 ∨ (menu_at 2 9).selected_index = 2)
      ∧ (infected_protocol_input_callback (short_press InputKey.InputKeyOk) (menu_at 2 9)).mode
          = AppMode.SHOW_MESSAGE
      ∧ c_str (infected_protocol_input_callback (short_press InputKey.InputKeyOk)
          (menu_at 2 9)).message = "Not implemented"
      ∧ (infected_protocol_input_callback (short_press InputKey.InputKeyOk)
          (menu_at 2 9)).selected_index = (menu_at 2 9).selected_index
      ∧ (infected_protocol_input_callback (short_press InputKey.InputKeyOk)
          (menu_at 2 9)).progress = (menu_at 2 9).progress :=
  ⟨rfl, Or.inr rfl,
    confirm_other_entry_shows_not_implemented (menu_at 2 9) rfl (Or.inr rfl)⟩

/-- C6: in `SHOW_MESSAGE`, a short OK press yields `MENU_MAIN` with the previously
selected index kept: `selected_index`, `progress` and `message` are unchanged. -/
theorem confirm_message_returns_to_menu (app : InfectedProtocolApp)
    (hmode : app.mode = AppMode.SHOW_MESSAGE) :
    (infected_protocol_input_callback (short_press InputKey.InputKeyOk) app).mode
        = AppMode.MENU_MAIN
      ∧ (infected_protocol_input_callback (short_press InputKey.InputKeyOk) app).selected_index
          = app.selected_index
      ∧ (infected_protocol_input_callback (short_press InputKey.InputKeyOk) app).progress
          = app.progress
      ∧ (infected_protocol_input_callback (short_press InputKey.InputKeyOk) app).message
          = app.message := by
  simp [infected_protocol_input_callback, short_press, hmode]

theorem confirm_message_returns_to_menu_witness :
    (message_at 1).mode = AppMode.SHOW_MESSAGE
      ∧ (infected_protocol_input_callback (short_press InputKey.InputKeyOk) (message_at 1)).mode
          = AppMode.MENU_MAIN
      ∧ (infected_protocol_input_callback (short_press InputKey.InputKeyOk)
          (message_at 1)).selected_index = (message_at 1).selected_index
      ∧ (infected_protocol_input_callback (short_press InputKey.InputKeyOk)
          (message_at 1)).progress = (message_at 1).progress
      ∧ (infected_protocol_input_callback (short_press InputKey.InputKeyOk)
          (message_at 1)).message = (message_at 1).message :=
  ⟨rfl, confirm_message_returns_to_menu (message_at 1) rfl⟩

/-- C7: in `PROCESS_UNLOCKING` with `progress < 100`, one pass through the loop
body adds exactly 1 to `progress` and leaves `mode`, `selected_index` and
`message` unchanged; hence from `PROCESS_UNLOCKING` with `progress = 0`, after
`n ≤ 100` passes the mode is still `PROCESS_UNLOCKING` and `progress = n`. -/
theorem tick_increments_progress :
    (∀ app : InfectedProtocolApp, app.mode = AppMode.PROCESS_UNLOCKING →
        app.progress < 100 →
        (loop_iteration app).progress = app.progress + 1
          ∧ (loop_iteration app).mode = app.mode
          ∧ (loop_iteration app).selected_index = app.selected_index
          ∧ (loop_iteration app).message = app.message)
    ∧ (∀ (app : InfectedProtocolApp) (n : Nat), app.mode = AppMode.PROCESS_UNLOCKING →
        app.progress = 0 → n ≤ 100 →
        (loop_iteration^[n] app).mode = AppMode.PROCESS_UNLOCKING
          ∧ (loop_iteration^[n] app).progress = n) := by
  refine ⟨?_, ?_⟩
  · intro app hmode hlt
    rw [loop_iteration_progress app hmode hlt]
    exact ⟨rfl, rfl, rfl, rfl⟩
  · intro app n hmode h0 hn
    rw [iterate_unlocking n app hmode (by omega)]
    exact ⟨hmode, by simp only []; omega⟩

theorem tick_increments_progress_witness :
    (unlocking_at 99).mode = AppMode.PROCESS_UNLOCKING ∧ (unlocking_at 99).progress < 100
      ∧ ((loop_iteration (unlocking_at 99)).progress = (unlocking_at 99).progress + 1
          ∧ (loop_iteration (unlocking_at 99)).mode = (unlocking_at 99).mode
          ∧ (loop_iteration (unlocking_at 99)).selected_index = (unlocking_at 99).selected_index
          ∧ (loop_iteration (unlocking_at 99)).message = (unlocking_at 99).message)
      ∧ (unlocking_at 0).mode = AppMode.PROCESS_UNLOCKING ∧ (unlocking_at 0).progress = 0
      ∧ 100 ≤ 100
      ∧ ((loop_iteration^[100] (unlocking_at 0)).mode = AppMode.PROCESS_UNLOCKING
          ∧ (loop_iteration^[100] (unlocking_at 0)).progress = 100) :=
  ⟨rfl, by decide, tick_increments_progress.1 (unlocking_at 99) rfl (by decide), rfl, rfl,
    Nat.le_refl 100, tick_increments_progress.2 (unlocking_at 0) 100 rfl rfl (Nat.le_refl 100)⟩

/-- C8: in `PROCESS_UNLOCKING` with `progress = 100`, one pass through the loop body
first presents a frame in `SHOW_MESSAGE` whose message text is exactly
"Unlock Complete", holds it for 2000 ms, and then ends in `MENU_MAIN` with
`selected_index` unchanged.  The pass reads no input event. -/
theorem unlock_complete_then_menu (app : InfectedProtocolApp)
    (hmode : app.mode = AppMode.PROCESS_UNLOCKING) (hp : app.progress = 100) :
    ∃ held final : InfectedProtocolApp,
      loop_body app
          = ([HostCall.gui_update held, HostCall.furi_delay_ms 2000,
              HostCall.gui_update final, HostCall.furi_yield], final)
        ∧ held.mode = AppMode.SHOW_MESSAGE
        ∧ c_str held.message = "Unlock Complete"
        ∧ held.selected_index = app.selected_index
        ∧ final.mode = AppMode.MENU_MAIN
        ∧ final.selected_index = app.selected_index := by
  refine ⟨{ app with mode := AppMode.SHOW_MESSAGE,
                      message := strcpy app.message "Unlock Complete" },
          { app with mode := AppMode.MENU_MAIN,
                      message := strcpy app.message "Unlock Complete" }, ?_, rfl,
          c_str_unlock_complete app.message, rfl, rfl, rfl⟩
  simp [loop_body, hmode, hp]

theorem unlock_complete_then_menu_witness :
    (unlocking_at 100).mode = AppMode.PROCESS_UNLOCKING ∧ (unlocking_at 100).progress = 100
      ∧ ∃ held final : InfectedProtocolApp,
          loop_body (unlocking_at 100)
              = ([HostCall.gui_update held, HostCall.furi_delay_ms 2000,
                  HostCall.gui_update final, HostCall.furi_yield], final)
            ∧ held.mode = AppMode.SHOW_MESSAGE
            ∧ c_str held.message = "Unlock Complete"
            ∧ held.selected_index = (unlocking_at 100).selected_index
            ∧ final.mode = AppMode.MENU_MAIN
            ∧ final.selected_index = (unlocking_at 100).selected_index :=
  ⟨rfl, rfl, unlock_complete_then_menu (unlocking_at 100) rfl rfl⟩

/-- C9: there is no user abort path: in `PROCESS_UNLOCKING`, for every input event
(any key, any press type) the input callback leaves the whole state (mode,
progress, selected_index, message) unchanged. -/
theorem no_user_abort (event : InputEvent) (app : InfectedProtocolApp)
    (hmode : app.mode = AppMode.PROCESS_UNLOCKING) :
    infected_protocol_input_callback event app = app :=
  input_callback_unlocking event app hmode

theorem no_user_abort_witness :
    (unlocking_at 40).mode = AppMode.PROCESS_UNLOCKING
      ∧ infected_protocol_input_callback (short_press InputKey.InputKeyOk) (unlocking_at 40)
          = unlocking_at 40 :=
  ⟨rfl, no_user_abort (short_press InputKey.InputKeyOk) (unlocking_at 40) rfl⟩

/-- C10: once started, the unlocking simulation runs to completion: from
`PROCESS_UNLOCKING` with `progress = p ≤ 100`, along every interleaving of input
events and loop iterations, the mode is `PROCESS_UNLOCKING` as long as fewer
than `101 - p` loop iterations have run, and the `(101 - p)`-th loop iteration
ends in `MENU_MAIN` with message "Unlock Complete" and `selected_index` equal to
its value at the start. -/
theorem unlocking_runs_to_completion (app : InfectedProtocolApp) (p : Nat)
    (hmode : app.mode = AppMode.PROCESS_UNLOCKING) (hp : app.progress = p) (hle : p ≤ 100)
    (steps : List Step) :
    (ticks steps < 101 - p → (run app steps).mode = AppMode.PROCESS_UNLOCKING)
    ∧ (ticks steps = 100 - p →
        (run app (steps ++ [Step.tick])).mode = AppMode.MENU_MAIN
          ∧ c_str (run app (steps ++ [Step.tick])).message = "Unlock Complete"
          ∧ (run app (steps ++ [Step.tick])).selected_index = app.selected_index) := by
  refine ⟨?_, ?_⟩
  · intro hlt
    rw [run_unlocking steps app hmode (by omega)]
    exact hmode
  · intro heq
    have hrun : run app steps = { app with progress := app.progress + ticks steps } :=
      run_unlocking steps app hmode (by omega)
    have hlast : run app (steps ++ [Step.tick]) = loop_iteration (run app steps) := by
      rw [run_append]; rfl
    have hge : ¬ (run app steps).progress < 100 := by
      rw [hrun]; simp only []; omega
    have hmode1 : (run app steps).mode = AppMode.PROCESS_UNLOCKING := by
      rw [hrun]; exact hmode
    rw [hlast, loop_iteration_complete (run app steps) hmode1 hge]
    refine ⟨rfl, c_str_unlock_complete _, ?_⟩
    rw [hrun]

theorem unlocking_runs_to_completion_witness :
    (unlocking_at 98).mode = AppMode.PROCESS_UNLOCKING ∧ (unlocking_at 98).progress = 98
      ∧ 98 ≤ 100
      ∧ ticks [Step.input (short_press InputKey.InputKeyOk), Step.tick,
          Step.input (short_press InputKey.InputKeyDown), Step.tick] < 101 - 98
      ∧ (run (unlocking_at 98) [Step.input (short_press InputKey.InputKeyOk), Step.tick,
          Step.input (short_press InputKey.InputKeyDown), Step.tick]).mode
          = AppMode.PROCESS_UNLOCKING
      ∧ ticks [Step.input (short_press InputKey.InputKeyOk), Step.tick,
          Step.input (short_press InputKey.InputKeyDown), Step.tick] = 100 - 98
      ∧ (run (unlocking_at 98) ([Step.input (short_press InputKey.InputKeyOk), Step.tick,
          Step.input (short_press InputKey.InputKeyDown), Step.tick] ++ [Step.tick])).mode
          = AppMode.MENU_MAIN
      ∧ c_str (run (unlocking_at 98) ([Step.input (short_press InputKey.InputKeyOk), Step.tick,
          Step.input (short_press InputKey.InputKeyDown), Step.tick] ++ [Step.tick])).message
          = "Unlock Complete"
      ∧ (run (unlocking_at 98) ([Step.input (short_press InputKey.InputKeyOk), Step.tick,
          Step.input (short_press InputKey.InputKeyDown), Step.tick] ++ [Step.tick])).selected_index
          = (unlocking_at 98).selected_index :=
  ⟨rfl, rfl, by decide, by decide,
    (unlocking_runs_to_completion (unlocking_at 98) 98 rfl rfl (by decide)
      [Step.input (short_press InputKey.InputKeyOk), Step.tick,
        Step.input (short_press InputKey.InputKeyDown), Step.tick]).1 (by decide),
    by decide,
    (unlocking_runs_to_completion (unlocking_at 98) 98 rfl rfl (by decide)
      [Step.input (short_press InputKey.InputKeyOk), Step.tick,
        Step.input (short_press InputKey.InputKeyDown), Step.tick]).2 (by decide)⟩

/-! ## Shared facts for the invariants on `progress` and `message` -/

theorem input_callback_progress_le (event : InputEvent) (app : InfectedProtocolApp)
    (h : app.progress ≤ 100) :
    (infected_protocol_input_callback event app).progress ≤ 100 := by
  unfold infected_protocol_input_callback
  split_ifs <;> first | exact h | simp

theorem loop_iteration_progress_le (app : InfectedProtocolApp) (h : app.progress ≤ 100) :
    (loop_iteration app).progress ≤ 100 := by
  unfold loop_iteration loop_body
  split_ifs with hmode hlt
  · have hmod : (app.progress + 1) % 256 = app.progress + 1 := Nat.mod_eq_of_lt (by omega)
    simp only [hmod]
    omega
  · exact h
  · exact h

theorem run_progress_le (steps : List Step) :
    ∀ app : InfectedProtocolApp, app.progress ≤ 100 → (run app steps).progress ≤ 100 := by
  induction steps with
  | nil => intro app h; exact h
  | cons s rest ih =>
    intro app h
    cases s with
    | input event => exact ih _ (input_callback_progress_le event app h)
    | tick => exact ih _ (loop_iteration_progress_le app h)

/-- After `strcpy` of a string that fits with its terminator, the buffer holds a NUL. -/
theorem null_terminated_strcpy (dst : MessageBuffer) (src : String)
    (hfit : src.toList.length < MESSAGE_SIZE) : null_terminated (strcpy dst src) := by
  have hfit0 : 0 + src.toList.length < MESSAGE_SIZE := by omega
  unfold null_terminated strcpy
  rw [strcpy_from_val src.toList dst 0 hfit0]
  simp

/-- The input callback leaves the message alone or copies "Not implemented" into it. -/
theorem input_callback_message (event : InputEvent) (app : InfectedProtocolApp) :
    (infected_protocol_input_callback event app).message = app.message
      ∨ (infected_protocol_input_callback event app).message
          = strcpy app.message "Not implemented" := by
  unfold infected_protocol_input_callback
  split_ifs <;> simp

/-- The loop body leaves the message alone or copies "Unlock Complete" into it. -/
theorem loop_iteration_message (app : InfectedProtocolApp) :
    (loop_iteration app).message = app.message
      ∨ (loop_iteration app).message = strcpy app.message "Unlock Complete" := by
  unfold loop_iteration loop_body
  split_ifs <;> simp

theorem input_callback_null_terminated (event : InputEvent) (app : InfectedProtocolApp)
    (h : null_terminated app.message) :
    null_terminated (infected_protocol_input_callback event app).message := by
  rcases input_callback_message event app with hm | hm
  · rw [hm]; exact h
  · rw [hm]; exact null_terminated_strcpy _ _ (by decide)

theorem loop_iteration_null_terminated (app : InfectedProtocolApp)
    (h : null_terminated app.message) : null_terminated (loop_iteration app).message := by
  rcases loop_iteration_message app with hm | hm
  · rw [hm]; exact h
  · rw [hm]; exact null_terminated_strcpy _ _ (by decide)

theorem run_null_terminated (steps : List Step) :
    ∀ app : InfectedProtocolApp, null_terminated app.message →
      null_terminated (run app steps).message := by
  induction steps with
  | nil => intro app h; exact h
  | cons s rest ih =>
    intro app h
    cases s with
    | input event => exact ih _ (input_callback_null_terminated event app h)
    | tick => exact ih _ (loop_iteration_null_terminated app h)

/-- Reading a list up to its first NUL stops inside the list, at a NUL. -/
theorem takeWhile_stops_at_nul (l : List Char) (h : NUL ∈ l) :
    (l.takeWhile (fun c => c != NUL)).length < l.length
      ∧ l[(l.takeWhile (fun c => c != NUL)).length]? = some NUL := by
  induction l with
  | nil => simp at h
  | cons a rest ih =>
    by_cases ha : a = NUL
    · subst ha
      simp
    · have hrest : NUL ∈ rest := by
        rcases List.mem_cons.mp h with h1 | h1
        · exact absurd h1.symm ha
        · exact h1
      have hp : (a != NUL) = true := by simpa using ha
      rw [@List.takeWhile_cons_of_pos Char (fun c => c != NUL) a rest hp]
      simp only [List.length_cons, List.getElem?_cons_succ]
      exact ⟨by have := (ih hrest).1; omega, (ih hrest).2⟩

theorem c_str_length (buf : MessageBuffer) :
    (c_str buf).length = (buf.val.takeWhile (fun c => c != NUL)).length := rfl

/-! ## The claims on input filtering and on the invariants -/

/-- C11: all unrecognized input is ignored: for every state and every input event
whose press type is not Short, or whose key is none of OK, Up, Down, the input
callback leaves the whole state unchanged. -/
theorem unrecognized_input_ignored (event : InputEvent) (app : InfectedProtocolApp)
    (h : event.type ≠ InputEventType.InputEventTypeShort
      ∨ (event.key ≠ InputKey.InputKeyOk ∧ event.key ≠ InputKey.InputKeyUp
          ∧ event.key ≠ InputKey.InputKeyDown)) :
    infected_protocol_input_callback event app = app := by
  unfold infected_protocol_input_callback
  rcases h with ht | ⟨hok, hup, hdown⟩
  · simp [ht]
  · simp [hok, hup, hdown]

theorem unrecognized_input_ignored_witness :
    ((InputEvent.mk InputEventType.InputEventTypeLong InputKey.InputKeyOk).type
          ≠ InputEventType.InputEventTypeShort
        ∨ ((InputEvent.mk InputEventType.InputEventTypeLong InputKey.InputKeyOk).key
              ≠ InputKey.InputKeyOk
            ∧ (InputEvent.mk InputEventType.InputEventTypeLong InputKey.InputKeyOk).key
              ≠ InputKey.InputKeyUp
            ∧ (InputEvent.mk InputEventType.InputEventTypeLong InputKey.InputKeyOk).key
              ≠ InputKey.InputKeyDown))
      ∧ infected_protocol_input_callback
          (InputEvent.mk InputEventType.InputEventTypeLong InputKey.InputKeyOk) (menu_at 0 0)
          = menu_at 0 0 :=
  ⟨Or.inl (by decide),
    unrecognized_input_ignored
      (InputEvent.mk InputEventType.InputEventTypeLong InputKey.InputKeyOk) (menu_at 0 0)
      (Or.inl (by decide))⟩

/-- C12: directional navigation only affects `selected_index` and only while in
`MENU_MAIN`: for every state and every short Up or Down press the input callback
leaves `mode`, `progress` and `message` unchanged, and if the mode is not
`MENU_MAIN` it leaves `selected_index` unchanged as well. -/
theorem navigation_touches_only_index (key : InputKey) (app : InfectedProtocolApp)
    (hkey : key = InputKey.InputKeyUp ∨ key = InputKey.InputKeyDown) :
    (infected_protocol_input_callback (short_press key) app).mode = app.mode
      ∧ (infected_protocol_input_callback (short_press key) app).progress = app.progress
      ∧ (infected_protocol_input_callback (short_press key) app).message = app.message
      ∧ (app.mode ≠ AppMode.MENU_MAIN →
          (infected_protocol_input_callback (short_press key) app).selected_index
            = app.selected_index) := by
  rcases hkey with rfl | rfl
  · have hup : infected_protocol_input_callback (short_press InputKey.InputKeyUp) app
        = if app.mode = AppMode.MENU_MAIN then
            (if app.selected_index > 0 then
              { app with selected_index := (app.selected_index + 256 - 1) % 256 }
            else app)
          else app := by
      simp [infected_protocol_input_callback, short_press]
    rw [hup]
    refine ⟨?_, ?_, ?_, ?_⟩
    · split_ifs <;> rfl
    · split_ifs <;> rfl
    · split_ifs <;> rfl
    · intro hne; rw [if_neg hne]
  · have hdown : infected_protocol_input_callback (short_press InputKey.InputKeyDown) app
        = if app.mode = AppMode.MENU_MAIN then
            (if app.selected_index < menu_items_count - 1 then
              { app with selected_index := (app.selected_index + 1) % 256 }
            else app)
          else app := by
      simp [infected_protocol_input_callback, short_press]
    rw [hdown]
    refine ⟨?_, ?_, ?_, ?_⟩
    · split_ifs <;> rfl
    · split_ifs <;> rfl
    · split_ifs <;> rfl
    · intro hne; rw [if_neg hne]

theorem navigation_touches_only_index_witness :
    (InputKey.InputKeyUp = InputKey.InputKeyUp ∨ InputKey.InputKeyUp = InputKey.InputKeyDown)
      ∧ (infected_protocol_input_callback (short_press InputKey.InputKeyUp) (message_at 1)).mode
          = (message_at 1).mode
      ∧ (infected_protocol_input_callback (short_press InputKey.InputKeyUp)
          (message_at 1)).progress = (message_at 1).progress
      ∧ (infected_protocol_input_callback (short_press InputKey.InputKeyUp)
          (message_at 1)).message = (message_at 1).message
      ∧ (message_at 1).mode ≠ AppMode.MENU_MAIN
      ∧ (infected_protocol_input_callback (short_press InputKey.InputKeyUp)
          (message_at 1)).selected_index = (message_at 1).selected_index :=
  ⟨Or.inl rfl,
    (navigation_touches_only_index InputKey.InputKeyUp (message_at 1) (Or.inl rfl)).1,
    (navigation_touches_only_index InputKey.InputKeyUp (message_at 1) (Or.inl rfl)).2.1,
    (navigation_touches_only_index InputKey.InputKeyUp (message_at 1) (Or.inl rfl)).2.2.1,
    by decide,
    (navigation_touches_only_index InputKey.InputKeyUp (message_at 1) (Or.inl rfl)).2.2.2
      (by decide)⟩

/-- C13: from the initial state, after every finite interleaving of input events
and loop iterations `progress` is in the range 0..100, so the 8-bit counter never
overflows and the increment never passes 100. -/
theorem progress_within_0_100 (steps : List Step) :
    0 ≤ (run initial_app steps).progress
      ∧ (run initial_app steps).progress ≤ 100
      ∧ (run initial_app steps).progress < 256 := by
  have h : (run initial_app steps).progress ≤ 100 :=
    run_progress_le steps initial_app (by decide)
  omega

/-- C14: `progress` is monotonically non-decreasing while in `PROCESS_UNLOCKING`:
for every single step (an input event or one loop iteration) from a state in
`PROCESS_UNLOCKING` to a state in `PROCESS_UNLOCKING`, the new `progress` is at
least the old one. -/
theorem progress_monotone_while_unlocking (app : InfectedProtocolApp) (s : Step)
    (hbefore : app.mode = AppMode.PROCESS_UNLOCKING)
    (hafter : (step app s).mode = AppMode.PROCESS_UNLOCKING) :
    app.progress ≤ (step app s).progress := by
  cases s with
  | input event =>
    have hstep : step app (Step.input event) = app :=
      input_callback_unlocking event app hbefore
    rw [hstep]
  | tick =>
    have hstep : step app Step.tick = loop_iteration app := rfl
    rw [hstep] at hafter ⊢
    by_cases hlt : app.progress < 100
    · rw [loop_iteration_progress app hbefore hlt]
      exact Nat.le_succ _
    · rw [loop_iteration_complete app hbefore hlt] at hafter
      exact AppMode.noConfusion hafter

theorem progress_monotone_while_unlocking_witness :
    (unlocking_at 5).mode = AppMode.PROCESS_UNLOCKING
      ∧ (step (unlocking_at 5) Step.tick).mode = AppMode.PROCESS_UNLOCKING
      ∧ (unlocking_at 5).progress ≤ (step (unlocking_at 5) Step.tick).progress :=
  ⟨rfl, rfl, progress_monotone_while_unlocking (unlocking_at 5) Step.tick rfl rfl⟩

/-- C15: `message` is always null-terminated: in every state reachable from the
initial state (zero-filled buffer) by input events and loop iterations, the
32-byte buffer holds a NUL, its text has at most 31 characters and is followed by
the terminator; and the two strings the program copies into it, "Not implemented"
and "Unlock Complete", have length 15 < 32. -/
theorem message_always_null_terminated (steps : List Step) :
    null_terminated (run initial_app steps).message
      ∧ (run initial_app steps).message.val.length = 32
      ∧ (c_str (run initial_app steps).message).length ≤ 31
      ∧ (run initial_app steps).message.val[(c_str (run initial_app steps).message).length]?
          = some NUL
      ∧ "Not implemented".length = 15 ∧ "Unlock Complete".length = 15
      ∧ 15 < MESSAGE_SIZE := by
  have hnul : null_terminated (run initial_app steps).message :=
    run_null_terminated steps initial_app (by decide)
  have hstop := takeWhile_stops_at_nul (run initial_app steps).message.val hnul
  have hlen : (run initial_app steps).message.val.length = 32 :=
    (run initial_app steps).message.property
  rw [c_str_length]
  refine ⟨hnul, hlen, ?_, hstop.2, by decide, by decide, by decide⟩
  have := hstop.1
  omega

/-! ## Shared facts on rendering and navigation -/

/-- A short Down press in `MENU_MAIN`. -/
theorem down_press_menu (app : InfectedProtocolApp) (hmode : app.mode = AppMode.MENU_MAIN) :
    infected_protocol_input_callback (short_press InputKey.InputKeyDown) app
      = if app.selected_index < 2 then
          { app with selected_index := (app.selected_index + 1) % 256 }
        else app := by
  simp [infected_protocol_input_callback, short_press, hmode, menu_items_count_eq]

/-- A short Up press in `MENU_MAIN`. -/
theorem up_press_menu (app : InfectedProtocolApp) (hmode : app.mode = AppMode.MENU_MAIN) :
    infected_protocol_input_callback (short_press InputKey.InputKeyUp) app
      = if app.selected_index > 0 then
          { app with selected_index := (app.selected_index + 256 - 1) % 256 }
        else app := by
  simp [infected_protocol_input_callback, short_press, hmode]

theorem press_n_down (k : Nat) :
    ∀ app : InfectedProtocolApp, app.mode = AppMode.MENU_MAIN → app.selected_index ≤ 2 →
      press_n InputKey.InputKeyDown k app
        = { app with selected_index := min (app.selected_index + k) 2 } := by
  induction k with
  | zero =>
    intro app _ hle
    have hmin : min (app.selected_index + 0) 2 = app.selected_index := by omega
    rw [hmin]; rfl
  | succ k ih =>
    intro app hmode hle
    rw [press_n, down_press_menu app hmode]
    by_cases hlt : app.selected_index < 2
    · have hmod : (app.selected_index + 1) % 256 = app.selected_index + 1 :=
        Nat.mod_eq_of_lt (by omega)
      rw [if_pos hlt, hmod, ih { app with selected_index := app.selected_index + 1 } hmode
        (by simp only []; omega)]
      simp only []
      congr 1
      omega
    · rw [if_neg hlt, ih app hmode hle]
      congr 1
      omega

theorem press_n_up (k : Nat) :
    ∀ app : InfectedProtocolApp, app.mode = AppMode.MENU_MAIN → app.selected_index ≤ 2 →
      press_n InputKey.InputKeyUp k app
        = { app with selected_index := app.selected_index - min app.selected_index k } := by
  induction k with
  | zero =>
    intro app _ _
    have hmin : app.selected_index - min app.selected_index 0 = app.selected_index := by omega
    rw [hmin]; rfl
  | succ k ih =>
    intro app hmode hle
    rw [press_n, up_press_menu app hmode]
    by_cases hgt : app.selected_index > 0
    · have hmod : (app.selected_index + 256 - 1) % 256 = app.selected_index - 1 := by omega
      rw [if_pos hgt, hmod, ih { app with selected_index := app.selected_index - 1 } hmode
        (by simp only []; omega)]
      simp only []
      congr 1
      omega
    · rw [if_neg hgt, ih app hmode hle]
      congr 1
      omega

/-! ## Shared facts on the text shown in `SHOW_MESSAGE` -/

/-- The input callback does not end in `SHOW_MESSAGE`, or keeps mode and message,
or has copied "Not implemented" into the message. -/
theorem input_callback_shape (event : InputEvent) (app : InfectedProtocolApp) :
    (infected_protocol_input_callback event app).mode ≠ AppMode.SHOW_MESSAGE
      ∨ ((infected_protocol_input_callback event app).mode = app.mode
          ∧ (infected_protocol_input_callback event app).message = app.message)
      ∨ (infected_protocol_input_callback event app).message
          = strcpy app.message "Not implemented" := by
  unfold infected_protocol_input_callback
  split_ifs <;> simp

theorem loop_iteration_shape (app : InfectedProtocolApp) :
    (loop_iteration app).mode ≠ AppMode.SHOW_MESSAGE ∨ loop_iteration app = app := by
  unfold loop_iteration loop_body
  split_ifs with hmode hlt
  · exact Or.inl (by rw [hmode]; exact AppMode.noConfusion)
  · exact Or.inl AppMode.noConfusion
  · exact Or.inr rfl

theorem step_message_text (app : InfectedProtocolApp) (s : Step)
    (h : app.mode = AppMode.SHOW_MESSAGE →
      c_str app.message = "Not implemented" ∨ c_str app.message = "Unlock Complete") :
    (step app s).mode = AppMode.SHOW_MESSAGE →
      c_str (step app s).message = "Not implemented"
        ∨ c_str (step app s).message = "Unlock Complete" := by
  cases s with
  | input event =>
    have hstep : step app (Step.input event) = infected_protocol_input_callback event app := rfl
    rw [hstep]
    intro hm
    rcases input_callback_shape event app with hne | ⟨hmode, hmsg⟩ | hmsg
    · exact absurd hm hne
    · rw [hmsg]; exact h (hmode ▸ hm)
    · rw [hmsg]; exact Or.inl (c_str_not_implemented app.message)
  | tick =>
    have hstep : step app Step.tick = loop_iteration app := rfl
    rw [hstep]
    intro hm
    rcases loop_iteration_shape app with hne | hsame
    · exact absurd hm hne
    · rw [hsame] at hm ⊢; exact h hm

theorem run_message_text (steps : List Step) :
    ∀ app : InfectedProtocolApp,
      (app.mode = AppMode.SHOW_MESSAGE →
        c_str app.message = "Not implemented" ∨ c_str app.message = "Unlock Complete") →
      (run app steps).mode = AppMode.SHOW_MESSAGE →
        c_str (run app steps).message = "Not implemented"
          ∨ c_str (run app steps).message = "Unlock Complete" := by
  induction steps with
  | nil => intro app h; exact h
  | cons s rest ih => intro app h; exact ih (step app s) (step_message_text app s h)

/-- Every frame the loop body presents in `SHOW_MESSAGE` reads "Unlock Complete". -/
theorem frames_message_text (app f : InfectedProtocolApp)
    (hf : f ∈ frames (loop_body app).1) (hm : f.mode = AppMode.SHOW_MESSAGE) :
    c_str f.message = "Unlock Complete" := by
  unfold loop_body at hf
  split_ifs at hf with hmode hlt
  · simp only [frames, List.mem_singleton] at hf
    rw [hf] at hm
    rw [hmode] at hm
    exact AppMode.noConfusion hm
  · simp only [frames, List.mem_cons, List.mem_singleton, List.not_mem_nil, or_false] at hf
    rcases hf with hf | hf
    · rw [hf]; exact c_str_unlock_complete app.message
    · rw [hf] at hm
      exact AppMode.noConfusion hm
  · simp [frames] at hf

/-! ## The claims on rendering, navigation and the idle loop -/

/-- C17: in `MENU_MAIN` with `selected_index` in `0..2`, the draw callback draws the
title and then the three menu labels "Unlock Phone", "Diagnostic Check",
"System Reset" in order at y = 40, 60, 80; exactly one label is drawn in the
highlight colour, the one at position `selected_index`, and every other label is
drawn in the non-selected colour. -/
theorem menu_highlights_selected_entry (canvas : Canvas) (app : InfectedProtocolApp)
    (hmode : app.mode = AppMode.MENU_MAIN) (hidx : app.selected_index ≤ 2) :
    infected_protocol_draw_callback canvas app
        = [DrawCommand.canvas_clear COLOR_BLACK,
           DrawCommand.canvas_draw_str 10 20 "Infected Protocol" FONT_PRIMARY COLOR_NEON_PINK,
           DrawCommand.canvas_draw_str 10 40 "Unlock Phone" FONT_PRIMARY
             (menu_item_color app 0),
           DrawCommand.canvas_draw_str 10 60 "Diagnostic Check" FONT_PRIMARY
             (menu_item_color app 1),
           DrawCommand.canvas_draw_str 10 80 "System Reset" FONT_PRIMARY
             (menu_item_color app 2)]
      ∧ (∀ i : Nat, i < 3 →
          (menu_item_color app i = COLOR_NEON_GREEN ↔ i = app.selected_index))
      ∧ (∀ i : Nat, i < 3 → i ≠ app.selected_index →
          menu_item_color app i = COLOR_NEON_PURPLE)
      ∧ (∃! i : Nat, i < 3 ∧ menu_item_color app i = COLOR_NEON_GREEN) := by
  have hcolor : ∀ i : Nat,
      (menu_item_color app i = COLOR_NEON_GREEN ↔ i = app.selected_index) := by
    intro i
    unfold menu_item_color
    by_cases hi : i = app.selected_index
    · simp [hi]
    · simp only [if_neg hi, hi, iff_false]
      decide
  refine ⟨?_, fun i _ => hcolor i, ?_, ?_⟩
  · simp only [infected_protocol_draw_callback, if_pos hmode]
    rfl
  · intro i _ hne
    unfold menu_item_color
    rw [if_neg hne]
  · refine ⟨app.selected_index, ⟨by omega, (hcolor _).mpr rfl⟩, ?_⟩
    intro j hj
    exact (hcolor j).mp hj.2

theorem menu_highlights_selected_entry_witness :
    (menu_at 1 0).mode = AppMode.MENU_MAIN ∧ (menu_at 1 0).selected_index ≤ 2
      ∧ infected_protocol_draw_callback (Canvas.mk 128 64) (menu_at 1 0)
          = [DrawCommand.canvas_clear COLOR_BLACK,
             DrawCommand.canvas_draw_str 10 20 "Infected Protocol" FONT_PRIMARY COLOR_NEON_PINK,
             DrawCommand.canvas_draw_str 10 40 "Unlock Phone" FONT_PRIMARY
               (menu_item_color (menu_at 1 0) 0),
             DrawCommand.canvas_draw_str 10 60 "Diagnostic Check" FONT_PRIMARY
               (menu_item_color (menu_at 1 0) 1),
             DrawCommand.canvas_draw_str 10 80 "System Reset" FONT_PRIMARY
               (menu_item_color (menu_at 1 0) 2)]
      ∧ (menu_item_color (menu_at 1 0) 1 = COLOR_NEON_GREEN ↔ 1 = (menu_at 1 0).selected_index)
      ∧ menu_item_color (menu_at 1 0) 2 = COLOR_NEON_PURPLE :=
  ⟨rfl, by decide,
    (menu_highlights_selected_entry (Canvas.mk 128 64) (menu_at 1 0) rfl (by decide)).1,
    (menu_highlights_selected_entry (Canvas.mk 128 64) (menu_at 1 0) rfl (by decide)).2.1 1
      (by decide),
    (menu_highlights_selected_entry (Canvas.mk 128 64) (menu_at 1 0) rfl (by decide)).2.2.1 2
      (by decide) (by decide)⟩

/-- C18: navigation moves by exactly one step inside the bounds: in `MENU_MAIN` a
short Down press with `selected_index = i < 2` sets it to `i + 1`, and a short Up
press with `selected_index = i > 0` (an 8-bit value) sets it to `i - 1`; hence
for `i` in `0..2` and every `k`, `k` Down presses from `i` give `min (i + k) 2`
and `k` Up presses from `i` give `i - min i k`. -/
theorem navigation_moves_one_step :
    (∀ app : InfectedProtocolApp, app.mode = AppMode.MENU_MAIN → app.selected_index < 2 →
        (infected_protocol_input_callback (short_press InputKey.InputKeyDown) app).selected_index
          = app.selected_index + 1)
    ∧ (∀ app : InfectedProtocolApp, app.mode = AppMode.MENU_MAIN → 0 < app.selected_index →
        app.selected_index < 256 →
        (infected_protocol_input_callback (short_press InputKey.InputKeyUp) app).selected_index
          = app.selected_index - 1)
    ∧ (∀ (app : InfectedProtocolApp) (k : Nat), app.mode = AppMode.MENU_MAIN →
        app.selected_index ≤ 2 →
        (press_n InputKey.InputKeyDown k app).selected_index = min (app.selected_index + k) 2)
    ∧ (∀ (app : InfectedProtocolApp) (k : Nat), app.mode = AppMode.MENU_MAIN →
        app.selected_index ≤ 2 →
        (press_n InputKey.InputKeyUp k app).selected_index
          = app.selected_index - min app.selected_index k) := by
  refine ⟨?_, ?_, ?_, ?_⟩
  · intro app hmode hlt
    rw [down_press_menu app hmode, if_pos hlt]
    exact Nat.mod_eq_of_lt (by omega)
  · intro app hmode hgt hlt
    rw [up_press_menu app hmode, if_pos hgt]
    show (app.selected_index + 256 - 1) % 256 = app.selected_index - 1
    omega
  · intro app k hmode hle
    rw [press_n_down k app hmode hle]
  · intro app k hmode hle
    rw [press_n_up k app hmode hle]

theorem navigation_moves_one_step_witness :
    (menu_at 1 0).mode = AppMode.MENU_MAIN ∧ (menu_at 1 0).selected_index < 2
      ∧ 0 < (menu_at 1 0).selected_index ∧ (menu_at 1 0).selected_index < 256
      ∧ (menu_at 1 0).selected_index ≤ 2
      ∧ (infected_protocol_input_callback (short_press InputKey.InputKeyDown)
          (menu_at 1 0)).selected_index = (menu_at 1 0).selected_index + 1
      ∧ (infected_protocol_input_callback (short_press InputKey.InputKeyUp)
          (menu_at 1 0)).selected_index = (menu_at 1 0).selected_index - 1
      ∧ (press_n InputKey.InputKeyDown 4 (menu_at 1 0)).selected_index
          = min ((menu_at 1 0).selected_index + 4) 2
      ∧ (press_n InputKey.InputKeyUp 4 (menu_at 1 0)).selected_index
          = (menu_at 1 0).selected_index - min (menu_at 1 0).selected_index 4 :=
  ⟨rfl, by decide, by decide, by decide, by decide,
    navigation_moves_one_step.1 (menu_at 1 0) rfl (by decide),
    navigation_moves_one_step.2.1 (menu_at 1 0) rfl (by decide) (by decide),
    navigation_moves_one_step.2.2.1 (menu_at 1 0) 4 rfl (by decide),
    navigation_moves_one_step.2.2.2 (menu_at 1 0) 4 rfl (by decide)⟩

/-- C19: the loop iteration acts only in `PROCESS_UNLOCKING`: in `MENU_MAIN` or
`SHOW_MESSAGE` one pass through the loop body leaves the whole state unchanged
and redraws nothing, and so does any number of passes; a "Not implemented"
message is never dismissed by the timer. -/
theorem tick_idle_outside_unlocking (app : InfectedProtocolApp)
    (hmode : app.mode = AppMode.MENU_MAIN ∨ app.mode = AppMode.SHOW_MESSAGE) :
    loop_iteration app = app
      ∧ loop_body app = ([HostCall.furi_yield], app)
      ∧ (∀ n : Nat, loop_iteration^[n] app = app) := by
  have hne : app.mode ≠ AppMode.PROCESS_UNLOCKING := by
    rcases hmode with h | h <;> rw [h] <;> exact AppMode.noConfusion
  have hbody : loop_body app = ([HostCall.furi_yield], app) := by
    unfold loop_body
    rw [if_neg hne]
  have hiter : loop_iteration app = app := by
    unfold loop_iteration
    rw [hbody]
  exact ⟨hiter, hbody, fun n => Function.iterate_fixed hiter n⟩

theorem tick_idle_outside_unlocking_witness :
    ((message_at 1).mode = AppMode.MENU_MAIN ∨ (message_at 1).mode = AppMode.SHOW_MESSAGE)
      ∧ loop_iteration (message_at 1) = message_at 1
      ∧ loop_body (message_at 1) = ([HostCall.furi_yield], message_at 1)
      ∧ loop_iteration^[7] (message_at 1) = message_at 1 :=
  ⟨Or.inr rfl,
    (tick_idle_outside_unlocking (message_at 1) (Or.inr rfl)).1,
    (tick_idle_outside_unlocking (message_at 1) (Or.inr rfl)).2.1,
    (tick_idle_outside_unlocking (message_at 1) (Or.inr rfl)).2.2 7⟩

/-- C20: the message screen never shows the empty initial buffer: every state in
`SHOW_MESSAGE` reachable from the initial state by input events and loop
iterations, and every frame in `SHOW_MESSAGE` that a loop iteration presents
from such a state (the one held during the completion hold), has message text
exactly "Not implemented" or exactly "Unlock Complete". -/
theorem message_screen_text_known (steps : List Step) :
    ((run initial_app steps).mode = AppMode.SHOW_MESSAGE →
        c_str (run initial_app steps).message = "Not implemented"
          ∨ c_str (run initial_app steps).message = "Unlock Complete")
    ∧ (∀ f : InfectedProtocolApp, f ∈ frames (loop_body (run initial_app steps)).1 →
        f.mode = AppMode.SHOW_MESSAGE →
        c_str f.message = "Not implemented" ∨ c_str f.message = "Unlock Complete") := by
  refine ⟨?_, ?_⟩
  · exact run_message_text steps initial_app (fun h => AppMode.noConfusion h)
  · intro f hf hm
    exact Or.inr (frames_message_text (run initial_app steps) f hf hm)

set_option maxRecDepth 100000 in
theorem message_screen_text_known_witness :
    (run initial_app [Step.input (short_press InputKey.InputKeyDown),
        Step.input (short_press InputKey.InputKeyOk)]).mode = AppMode.SHOW_MESSAGE
      ∧ (c_str (run initial_app [Step.input (short_press InputKey.InputKeyDown),
            Step.input (short_press InputKey.InputKeyOk)]).message = "Not implemented"
          ∨ c_str (run initial_app [Step.input (short_press InputKey.InputKeyDown),
            Step.input (short_press InputKey.InputKeyOk)]).message = "Unlock Complete")
      ∧ held_frame ∈ frames (loop_body (run initial_app unlock_steps)).1
      ∧ held_frame.mode = AppMode.SHOW_MESSAGE
      ∧ (c_str held_frame.message = "Not implemented"
          ∨ c_str held_frame.message = "Unlock Complete") :=
  ⟨rfl,
    (message_screen_text_known [Step.input (short_press InputKey.InputKeyDown),
      Step.input (short_press InputKey.InputKeyOk)]).1 rfl,
    by decide, rfl,
    (message_screen_text_known unlock_steps).2 held_frame (by decide) rfl⟩

end InfectedProtocol
